import Mathlib

/-!
Shallow embedding of the vector-store layer of the DataLoader repository
(`src/embdloader/infrastructure/vector_stores/faiss_store.py`; the Chroma
variant shares the row/schema logic verbatim).  DataFrames are modelled as a
column list plus rows given as association lists from column name to cell
value; a missing association models a pandas NaN cell.  Python dictionaries
are modelled as insertion-ordered association lists whose update keeps the
position of an existing key, as Python dict assignment does.  Python
exceptions are modelled with `Except`: an operation that raises before
mutating state returns only the error.
-/

namespace DataLoader

/-- A pandas cell value: `null` models NaN/None, `vec` models a list of
numbers used as an embedding vector (coordinates modelled as integers). -/
inductive Value where
  | null : Value
  | int (n : Int) : Value
  | str (s : String) : Value
  | bool (b : Bool) : Value
  | vec (v : List Int) : Value
deriving DecidableEq, Repr

/-- Pandas elementwise `==` (used by `existing[pk] == row[pk]` and
`df["is_active"] != False`): NaN compares unequal to everything, itself
included; Python booleans compare equal to the corresponding integers. -/
def Value.pyEq : Value → Value → Bool
  | .int a, .int b => a == b
  | .int a, .bool b => a == (if b then (1 : Int) else 0)
  | .bool a, .int b => (if a then (1 : Int) else 0) == b
  | .bool a, .bool b => a == b
  | .str a, .str b => a == b
  | .vec a, .vec b => a == b
  | _, _ => false

/-- Insertion-ordered dictionary lookup (Python `d[k]` / `k in d`). -/
def dictLookup {α : Type} : List (String × α) → String → Option α
  | [], _ => Option.none
  | (k, v) :: l, c => if k = c then some v else dictLookup l c

/-- Insertion-ordered dictionary update (Python `d[k] = v`): an existing key
keeps its position, a new key is appended. -/
def dictSet {α : Type} : List (String × α) → String → α → List (String × α)
  | [], k, v => [(k, v)]
  | (k', v') :: l, k, v => if k' = k then (k, v) :: l else (k', v') :: dictSet l k v

/-- A pandas row: association list from column name to value; an absent
column reads as NaN. -/
def Row : Type := List (String × Value)

instance : DecidableEq Row := by
  unfold Row
  infer_instance

/-- Reading a cell: a missing association is a NaN cell. -/
def rowGet (r : Row) (c : String) : Value := (dictLookup r c).getD Value.null

/-- Writing a cell (pandas cell assignment). -/
def rowSet (r : Row) (c : String) (v : Value) : Row := dictSet r c v

/-- A pandas DataFrame: a column list plus rows. -/
structure DataFrame where
  cols : List String
  rows : List Row
deriving DecidableEq

/-- `pd.concat` column alignment: the union of the two column lists, first
frame's order first. -/
def unionCols (a b : List String) : List String :=
  a ++ b.filter (fun c => ¬ a.contains c)

/-- Assigning a row across all columns of a frame
(`existing.loc[idx, :] = row`): every frame column takes the row's value
under that label, NaN when the row has no such label; extra labels of the
row are dropped. -/
def alignRow (cols : List String) (r : Row) : Row :=
  cols.map (fun c => (c, rowGet r c))

/-- `TableSchema` from `src.embdloader.domain.entities` (that module is not
under `src/`); per spec §3 it is the pair of a column-to-type map and a
column-to-nullability map. -/
structure TableSchema where
  columns : List (String × String)
  nullables : List (String × Bool)
deriving DecidableEq, Repr

/-- A `faiss.IndexFlatL2`: its dimension and the stored vectors in
insertion order. -/
structure FaissIndex where
  d : Nat
  vecs : List (List Int)
deriving DecidableEq, Repr

/-- The exceptions the store raises.  `pyError` stands for an unhandled
Python exception (KeyError, IndexError, ValueError). -/
inductive Err where
  | dbOperation (msg : String) : Err
  | dataValidation (msg : String) : Err
  | pyError (msg : String) : Err
deriving DecidableEq, Repr

/-- The mutable state of a `FaissVectorStore` instance: the three
table-name-keyed dictionaries of `__init__`. -/
structure Store where
  indexes : List (String × FaissIndex)
  data : List (String × DataFrame)
  schemas : List (String × TableSchema)
deriving DecidableEq

/-- A freshly constructed store. -/
def emptyStore : Store := { indexes := [], data := [], schemas := [] }

/-- Modelled from the spec: `src.embdloader.config` is not under `src/`;
the spec's schema-correctness example (§8) uses embedding dimension 768. -/
def DEFAULT_DIMENTION : Nat := 768

/-- `FaissVectorStore.create_table`. -/
def create_table (s : Store) (t : String) (df : DataFrame)
    (_pk_columns : List String) (embed_type : String)
    (embed_columns_names : List String) :
    Except Err (List (String × String) × Store) :=
  match dictLookup s.indexes t with
  | some _ =>
    match dictLookup s.schemas t with
    | some sch => .ok (sch.columns, s)
    | none => .error (.pyError "KeyError")
  | none =>
    let ct0 := df.cols.foldl (fun m c => dictSet m c "text") []
    let ct1 := dictSet ct0 "embed_columns_names" "text[]"
    let vecTy := "vector(" ++ toString DEFAULT_DIMENTION ++ ")"
    let ct2 :=
      if embed_type = "combined" then
        dictSet (dictSet ct1 "embed_columns_value" "text") "embeddings" vecTy
      else
        embed_columns_names.foldl (fun m c => dictSet m (c ++ "_enc") vecTy) ct1
    let ct := dictSet ct2 "is_active" "boolean"
    let sch : TableSchema :=
      { columns := ct, nullables := ct.map (fun p => (p.1, true)) }
    let s' : Store :=
      { indexes := dictSet s.indexes t { d := DEFAULT_DIMENTION, vecs := [] },
        data := dictSet s.data t { cols := ct.map (fun p => p.1), rows := [] },
        schemas := dictSet s.schemas t sch }
    .ok (ct, s')

/-- `np.array(df["embeddings"].tolist()).astype("float32")`: every cell must
be an actual vector, otherwise the conversion raises. -/
def vecsOf : List Row → Option (List (List Int))
  | [] => some []
  | r :: rs =>
    match rowGet r "embeddings", vecsOf rs with
    | .vec v, some vs => some (v :: vs)
    | _, _ => Option.none

/-- `FaissVectorStore.insert_data`.  The concat into `self.data` happens
before the index add in the source; the error branches modelled here all
fire before any mutation, matching the source order of the checks. -/
def insert_data (s : Store) (t : String) (df : DataFrame)
    (pk_columns : List String) : Except Err Store :=
  match dictLookup s.data t with
  | none => .error (.dbOperation ("Table " ++ t ++ " not found"))
  | some existing =>
    if ¬ (pk_columns.all (fun c => df.cols.contains c)) then
      .error (.dataValidation "Primary keys missing in DataFrame")
    else
      let newDf : DataFrame :=
        { cols := unionCols existing.cols df.cols, rows := existing.rows ++ df.rows }
      let s1 : Store := { s with data := dictSet s.data t newDf }
      if df.cols.contains "embeddings" then
        match vecsOf df.rows with
        | Option.none => .error (.pyError "ValueError")
        | some vs =>
          match dictLookup s1.indexes t with
          | Option.none => .error (.pyError "KeyError")
          | some idx =>
            if vs.all (fun v => v.length = idx.d) then
              .ok { s1 with
                      indexes := dictSet s1.indexes t { idx with vecs := idx.vecs ++ vs } }
            else .error (.pyError "AssertionError")
      else .ok s1

/-- Squared L2 distance, the metric of `faiss.IndexFlatL2`. -/
def sqDist (a b : List Int) : Int :=
  (List.zipWith (fun x y => (x - y) * (x - y)) a b).foldl (· + ·) 0

/-- Insert a scored entry into a distance-sorted list, after existing equal
distances (stable, matching the index's insertion-order tie handling). -/
def insertByDist (p : Int × Int) : List (Int × Int) → List (Int × Int)
  | [] => [p]
  | q :: qs => if p.2 < q.2 then p :: q :: qs else q :: insertByDist p qs

/-- Stable sort of scored entries by distance. -/
def sortByDist : List (Int × Int) → List (Int × Int)
  | [] => []
  | p :: ps => insertByDist p (sortByDist ps)

/-- The distance FAISS reports for the padding entries it emits when fewer
than `k` vectors are stored (FLT_MAX; the exact magnitude is irrelevant,
only that it is a fixed large value). -/
def faissPadDistance : Int := 2 ^ 128

/-- `index.search(query, k)` of a flat L2 index: the min(k, ntotal) stored
vectors nearest to the query as (label, squared distance) pairs in
non-decreasing distance order, padded to exactly `k` entries with label
`-1` and distance FLT_MAX. -/
def faissSearch (vecs : List (List Int)) (q : List Int) (k : Nat) :
    List (Int × Int) :=
  let scored := (vecs.enum).map (fun p => ((p.1 : Int), sqDist q p.2))
  let top := (sortByDist scored).take k
  top ++ List.replicate (k - top.length) (-1, faissPadDistance)

/-- Pandas `iloc` integer row access, with Python negative indexing. -/
def iloc (rows : List Row) (i : Int) : Option Row :=
  if 0 ≤ i then rows.get? i.toNat else rows.get? (rows.length - i.natAbs)

/-- `FaissVectorStore.search`: runs the flat index, then keeps every hit
whose label is `< len(data)` (note: FAISS's `-1` padding labels pass this
test and index the last stored row via Python negative indexing), attaching
the distance to the returned row under key `"distance"`. -/
def search (s : Store) (t : String) (query_embedding : List Int)
    (top_k : Nat) : Except Err (List Row) :=
  match dictLookup s.indexes t with
  | Option.none => .error (.dbOperation ("Table " ++ t ++ " not found"))
  | some idx =>
    match dictLookup s.data t with
    | Option.none => .error (.pyError "KeyError")
    | some df =>
      let pairs := faissSearch idx.vecs query_embedding top_k
      .ok (pairs.filterMap (fun p =>
        if p.1 < (df.rows.length : Int) then
          (iloc df.rows p.1).map (fun r => rowSet r "distance" (.int p.2))
        else Option.none))

/-- `FaissVectorStore.add_column`: extends the schema's column map (the
nullability map is untouched in the source) and overwrites the column with
None on every stored row. -/
def add_column (s : Store) (t : String) (column_name : String)
    (column_type : String) : Except Err Store :=
  match dictLookup s.schemas t with
  | Option.none => .error (.dbOperation ("Table " ++ t ++ " not found"))
  | some sch =>
    match dictLookup s.data t with
    | Option.none => .error (.pyError "KeyError")
    | some df =>
      let sch' : TableSchema :=
        { sch with columns := dictSet sch.columns column_name column_type }
      let df' : DataFrame :=
        { cols := if df.cols.contains column_name then df.cols
                  else df.cols ++ [column_name],
          rows := df.rows.map (fun r => rowSet r column_name Value.null) }
      .ok { s with schemas := dictSet s.schemas t sch',
                   data := dictSet s.data t df' }

/-- `FaissVectorStore.get_active_data`. -/
def get_active_data (s : Store) (t : String) : DataFrame :=
  match dictLookup s.data t with
  | Option.none => { cols := [], rows := [] }
  | some df =>
    if df.cols.contains "is_active" then
      let keep := fun (r : Row) => ! Value.pyEq (rowGet r "is_active") (.bool false)
      { df with rows := df.rows.filter keep }
    else df

/-- `FaissVectorStore.set_inactive`: no-op when the table is unknown or the
value set empty; otherwise takes the frame's first column as the primary
key (`IndexError` if the frame has no columns, which no reachable state
produces) and sets `is_active` to False on every row whose key value is a
member of the set (pandas `isin`, under which NaN matches NaN). -/
def set_inactive (s : Store) (t : String) (pk_values : List Value) :
    Except Err Store :=
  match dictLookup s.data t with
  | Option.none => .ok s
  | some df =>
    if pk_values.isEmpty then .ok s
    else
      match df.cols.head? with
      | Option.none => .error (.pyError "IndexError")
      | some pk_col =>
        let cols' := if df.cols.contains "is_active" then df.cols
                     else df.cols ++ ["is_active"]
        let df' : DataFrame :=
          { cols := cols',
            rows := df.rows.map (fun r =>
              if rowGet r pk_col ∈ pk_values then
                rowSet r "is_active" (.bool false)
              else r) }
        .ok { s with data := dictSet s.data t df' }

/-- One input row of one pass of `update_data`'s inner loop: rows of the
stored frame whose value in column `pk` pandas-equals the input row's are
all overwritten in place by the input row aligned to the frame's columns;
when none matches the input row is appended via concat. -/
def updateRowStep (ex : DataFrame) (dfCols : List String) (pk : String)
    (r : Row) : DataFrame :=
  if ex.rows.any (fun er => Value.pyEq (rowGet er pk) (rowGet r pk)) then
    { ex with rows := ex.rows.map (fun er =>
        if Value.pyEq (rowGet er pk) (rowGet r pk) then alignRow ex.cols r
        else er) }
  else
    { cols := unionCols ex.cols dfCols, rows := ex.rows ++ [r] }

/-- One pass of `update_data`'s outer loop, for one primary-key column:
skipped entirely when the column is absent from the input or from the
stored frame. -/
def updatePk (ex : DataFrame) (df : DataFrame) (pk : String) : DataFrame :=
  if df.cols.contains pk && ex.cols.contains pk then
    df.rows.foldl (fun e r => updateRowStep e df.cols pk r) ex
  else ex

/-- `FaissVectorStore.update_data`: one pass over the whole batch per
declared primary-key column. -/
def update_data (s : Store) (t : String) (df : DataFrame)
    (pk_columns : List String) : Except Err Store :=
  match dictLookup s.data t with
  | Option.none => .error (.dbOperation ("Table " ++ t ++ " not found"))
  | some existing =>
    let final := pk_columns.foldl (fun ex pk => updatePk ex df pk) existing
    .ok { s with data := dictSet s.data t final }

/-! ### Dictionary lemmas -/

theorem dictLookup_dictSet_self {α : Type} (l : List (String × α)) (k : String)
    (v : α) : dictLookup (dictSet l k v) k = some v := by
  induction l with
  | nil => simp [dictSet, dictLookup]
  | cons p l ih =>
    by_cases h : p.1 = k
    · simp [dictSet, h, dictLookup]
    · simp [dictSet, h, dictLookup, ih]

theorem dictLookup_dictSet_ne {α : Type} (l : List (String × α)) (k k' : String)
    (v : α) (h : k' ≠ k) :
    dictLookup (dictSet l k v) k' = dictLookup l k' := by
  induction l with
  | nil =>
    simp only [dictSet, dictLookup]
    rw [if_neg (fun hh : k = k' => h hh.symm)]
  | cons p l ih =>
    by_cases hp : p.1 = k
    · simp only [dictSet, if_pos hp, dictLookup, hp]
      rw [if_neg (fun hh : k = k' => h hh.symm), if_neg (fun hh : k = k' => h hh.symm)]
    · simp only [dictSet, if_neg hp, dictLookup]
      by_cases hk' : p.1 = k'
      · rw [if_pos hk', if_pos hk']
      · rw [if_neg hk', if_neg hk', ih]

theorem dictSet_eq_self {α : Type} (l : List (String × α)) (k : String) (v : α)
    (h : dictLookup l k = some v) : dictSet l k v = l := by
  induction l with
  | nil => simp [dictLookup] at h
  | cons p l ih =>
    by_cases hp : p.1 = k
    · simp only [dictLookup, if_pos hp] at h
      have hv := Option.some.inj h
      simp only [dictSet, if_pos hp]
      rw [← hp, ← hv]
    · simp only [dictLookup, if_neg hp] at h
      simp only [dictSet, if_neg hp, ih h]

theorem dictLookup_map_true {α : Type} (l : List (String × α)) (k : String) :
    dictLookup (l.map (fun p => (p.1, true))) k = (dictLookup l k).map (fun _ => true) := by
  induction l with
  | nil => simp [dictLookup]
  | cons p l ih =>
    by_cases hp : p.1 = k
    · simp [dictLookup, hp]
    · simp [dictLookup, hp, ih]

theorem dictLookup_foldl_text (cols : List String) (m0 : List (String × String))
    (k : String) :
    dictLookup (cols.foldl (fun m c => dictSet m c "text") m0) k =
      if k ∈ cols then some "text" else dictLookup m0 k := by
  induction cols generalizing m0 with
  | nil => simp
  | cons c cs ih =>
    simp only [List.foldl_cons, ih, List.mem_cons]
    by_cases hcs : k ∈ cs
    · simp [hcs]
    · by_cases hck : k = c
      · simp [hcs, hck, dictLookup_dictSet_self]
      · simp [hcs, hck, dictLookup_dictSet_ne _ _ _ _ hck]

theorem dictLookup_foldl_enc_notmem (ecn : List String)
    (m0 : List (String × String)) (v : String) (k : String)
    (h : ∀ c ∈ ecn, c ++ "_enc" ≠ k) :
    dictLookup (ecn.foldl (fun m c => dictSet m (c ++ "_enc") v) m0) k =
      dictLookup m0 k := by
  induction ecn generalizing m0 with
  | nil => simp
  | cons c cs ih =>
    simp only [List.foldl_cons]
    rw [ih _ (fun c' hc' => h c' (List.mem_cons_of_mem _ hc'))]
    exact dictLookup_dictSet_ne _ _ _ _ (fun hh => h c (List.mem_cons_self _ _) hh.symm)

theorem append_left_injective_str {x y e : String} (h : x ++ e = y ++ e) :
    x = y := by
  have hd : x.data ++ e.data = y.data ++ e.data := by
    have : (x ++ e).data = (y ++ e).data := by rw [h]
    simpa [String.data_append] using this
  exact String.ext (List.append_cancel_right hd)

theorem dictLookup_foldl_enc_mem (ecn : List String)
    (m0 : List (String × String)) (v : String) (c : String) (h : c ∈ ecn) :
    dictLookup (ecn.foldl (fun m c => dictSet m (c ++ "_enc") v) m0) (c ++ "_enc") =
      some v := by
  induction ecn generalizing m0 with
  | nil => simp at h
  | cons c' cs ih =>
    simp only [List.foldl_cons]
    by_cases hcs : c ∈ cs
    · exact ih _ hcs
    · have hc : c = c' := by
        rcases List.mem_cons.mp h with h1 | h2
        · exact h1
        · exact absurd h2 hcs
      subst hc
      rw [dictLookup_foldl_enc_notmem _ _ _ _
        (fun c'' hc'' he => hcs (by rw [← append_left_injective_str he]; exact hc''))]
      exact dictLookup_dictSet_self _ _ _

/-! ### String lemmas: a name of the form `x ++ "_enc"` ends in `'c'`,
so it can never equal one of the four special column names. -/

theorem enc_last_char (x : String) :
    (x ++ "_enc").data.getLast? = some 'c' := by
  rw [String.data_append]
  rw [List.getLast?_append_of_ne_nil _ (by decide)]
  decide

theorem enc_ne_of_last {x s : String} (h : s.data.getLast? ≠ some 'c') :
    x ++ "_enc" ≠ s := by
  intro he
  exact h (by rw [← he]; exact enc_last_char x)

/-! ### Claim theorems -/

/-- C3: `create_table` is idempotent: a second call with the same inputs
returns the same column map and leaves the whole store state (schemas, row
collections, indexes) unchanged. -/
theorem create_table_idempotent (s : Store) (t : String) (df : DataFrame)
    (pks : List String) (et : String) (ecn : List String)
    (r1 : List (String × String)) (s1 : Store)
    (h : create_table s t df pks et ecn = .ok (r1, s1)) :
    create_table s1 t df pks et ecn = .ok (r1, s1) := by
  cases hidx : dictLookup s.indexes t with
  | some i =>
    cases hsch : dictLookup s.schemas t with
    | none =>
      simp only [create_table, hidx, hsch] at h
      exact absurd h (by simp)
    | some sch =>
      simp only [create_table, hidx, hsch] at h
      obtain ⟨hr, hs⟩ := Prod.mk.inj (Except.ok.inj h)
      subst hs
      simp only [create_table, hidx, hsch, hr]
  | none =>
    simp only [create_table, hidx] at h
    obtain ⟨hr, hs⟩ := Prod.mk.inj (Except.ok.inj h)
    simp only [create_table, ← hs, dictLookup_dictSet_self]
    rw [hr]

/-- The result of a concrete first `create_table` call, used to witness C3. -/
def ctResW : Except Err (List (String × String) × Store) :=
  create_table emptyStore "t" ⟨["id", "name"], []⟩ ["id"] "combined" []

/-- Column map returned by the concrete first call. -/
def r1W : List (String × String) := (ctResW.toOption.map Prod.fst).getD []

/-- Store produced by the concrete first call. -/
def s1W : Store := (ctResW.toOption.map Prod.snd).getD emptyStore

set_option maxRecDepth 4000 in
/-- Witness for C3 on a concrete fresh table. -/
theorem create_table_idempotent_witness :
    create_table s1W "t" ⟨["id", "name"], []⟩ ["id"] "combined" [] =
      .ok (r1W, s1W) :=
  create_table_idempotent emptyStore "t" ⟨["id", "name"], []⟩ ["id"] "combined"
    [] r1W s1W (by rfl)

/-- C5: `insert_data` raises `DBOperationError` when the table was never
created, and `DataValidationError` when a declared primary-key column is
absent from the input columns; both checks precede any state mutation, so
the store is returned unmodified (no `ok` state is produced). -/
theorem insert_data_error_contract (s : Store) (t : String) (df : DataFrame)
    (pks : List String) :
    (dictLookup s.data t = Option.none →
      insert_data s t df pks = .error (.dbOperation ("Table " ++ t ++ " not found"))) ∧
    ((dictLookup s.data t).isSome → (∃ pk ∈ pks, pk ∉ df.cols) →
      insert_data s t df pks =
        .error (.dataValidation "Primary keys missing in DataFrame")) := by
  constructor
  · intro h
    simp only [insert_data, h]
  · intro hsome hpk
    obtain ⟨ex, hex⟩ := Option.isSome_iff_exists.mp hsome
    obtain ⟨pk, hpkmem, hpkabs⟩ := hpk
    have hall : ¬ (pks.all (fun c => df.cols.contains c)) := by
      simp only [List.all_eq_true, not_forall]
      refine ⟨pk, ?_⟩
      simp [hpkmem, List.elem_eq_mem, hpkabs]
    simp only [insert_data, hex, if_pos hall]

/-- Witness for C5: both error branches fire on concrete inputs. -/
theorem insert_data_error_contract_witness :
    (insert_data emptyStore "t" ⟨["id"], []⟩ ["id"] =
      .error (.dbOperation ("Table " ++ "t" ++ " not found"))) ∧
    (insert_data { emptyStore with data := [("t", ⟨["id"], []⟩)] } "t"
        ⟨["name"], []⟩ ["id"] =
      .error (.dataValidation "Primary keys missing in DataFrame")) :=
  ⟨(insert_data_error_contract emptyStore "t" ⟨["id"], []⟩ ["id"]).1 rfl,
   (insert_data_error_contract { emptyStore with data := [("t", ⟨["id"], []⟩)] }
      "t" ⟨["name"], []⟩ ["id"]).2 (by decide) ⟨"id", by decide, by decide⟩⟩

/-- C10: `update_data` performs no primary-key validation: when every
declared primary-key column is absent from the input columns or from the
stored frame's columns, every matching pass is skipped, the call returns
successfully (no `DataValidationError`), and the store is left exactly
unchanged. -/
theorem update_data_skips_missing_pks (s : Store) (t : String) (df : DataFrame)
    (pks : List String) (ex : DataFrame)
    (hex : dictLookup s.data t = some ex)
    (h : ∀ pk ∈ pks, pk ∉ df.cols ∨ pk ∉ ex.cols) :
    update_data s t df pks = .ok s := by
  have hstep : ∀ pk, (pk ∉ df.cols ∨ pk ∉ ex.cols) → updatePk ex df pk = ex := by
    intro pk hh
    unfold updatePk
    rcases hh with hh | hh
    · rw [if_neg]
      simp [List.elem_eq_mem, hh]
    · rw [if_neg]
      simp [List.elem_eq_mem, hh]
  have hfold : ∀ ps : List String, (∀ pk ∈ ps, pk ∉ df.cols ∨ pk ∉ ex.cols) →
      ps.foldl (fun e pk => updatePk e df pk) ex = ex := by
    intro ps
    induction ps with
    | nil => intro _; rfl
    | cons pk ps ih =>
      intro hps
      simp only [List.foldl_cons, hstep pk (hps pk (List.mem_cons_self _ _))]
      exact ih (fun p hp => hps p (List.mem_cons_of_mem _ hp))
  simp only [update_data, hex, hfold pks h, dictSet_eq_self _ _ _ hex]

/-- Witness for C10: updating with a batch lacking the declared key column
succeeds and changes nothing. -/
theorem update_data_skips_missing_pks_witness :
    update_data
      { emptyStore with
          data := [("t", ⟨["id", "name"], [[("id", .int 1), ("name", .str "a")]]⟩)] }
      "t" ⟨["name"], [[("name", .str "b")]]⟩ ["id"] =
      .ok { emptyStore with
              data := [("t", ⟨["id", "name"], [[("id", .int 1), ("name", .str "a")]]⟩)] } :=
  update_data_skips_missing_pks _ "t" _ ["id"] _ rfl
    (fun pk hpk => by
      have hp : pk = "id" := List.mem_singleton.mp hpk
      subst hp
      left
      decide)

/-! ### Row access lemmas -/

theorem rowGet_rowSet_self (r : Row) (c : String) (v : Value) :
    rowGet (rowSet r c v) c = v := by
  unfold rowGet rowSet
  rw [dictLookup_dictSet_self]
  rfl

theorem rowGet_rowSet_ne (r : Row) (c c' : String) (v : Value) (h : c' ≠ c) :
    rowGet (rowSet r c v) c' = rowGet r c' := by
  unfold rowGet rowSet
  rw [dictLookup_dictSet_ne _ _ _ _ h]

/-- C8: `get_active_data` returns exactly the stored rows whose `is_active`
value is not (Python-)equal to `False`; rows lacking the value (NaN) count
as active; an unknown table yields an empty frame without raising.  The
hypothesis covers the frame-has-no-`is_active`-column case, where the
source returns all rows: in every reachable state such a frame's rows
carry no `is_active` cell, so this equals the filter. -/
theorem get_active_data_spec (s : Store) (t : String) :
    (dictLookup s.data t = Option.none → get_active_data s t = ⟨[], []⟩) ∧
    (∀ df, dictLookup s.data t = some df →
      ("is_active" ∉ df.cols → ∀ r ∈ df.rows, rowGet r "is_active" = .null) →
      (get_active_data s t).rows =
        df.rows.filter
          (fun r => ! Value.pyEq (rowGet r "is_active") (.bool false))) := by
  constructor
  · intro h
    simp [get_active_data, h]
  · intro df hdf hnull
    by_cases hc : "is_active" ∈ df.cols
    · simp only [get_active_data, hdf]
      rw [if_pos (by simp [List.elem_eq_mem, hc])]
    · simp only [get_active_data, hdf]
      rw [if_neg (by simp [List.elem_eq_mem, hc])]
      symm
      rw [List.filter_eq_self]
      intro r hr
      rw [hnull hc r hr]
      rfl

/-- A concrete frame with an active, an inactive and a NaN-flagged row,
for the C8 witness. -/
def dfW8 : DataFrame :=
  ⟨["id", "is_active"],
   [[("id", .int 1), ("is_active", .bool true)],
    [("id", .int 2), ("is_active", .bool false)],
    [("id", .int 3)]]⟩

/-- Witness for C8: only the explicitly inactive row is dropped, and an
unknown table gives the empty frame. -/
theorem get_active_data_spec_witness :
    (get_active_data emptyStore "t" = ⟨[], []⟩) ∧
    ((get_active_data { emptyStore with data := [("t", dfW8)] } "t").rows =
      [[("id", .int 1), ("is_active", .bool true)], [("id", .int 3)]]) := by
  constructor
  · exact (get_active_data_spec emptyStore "t").1 rfl
  · rw [(get_active_data_spec { emptyStore with data := [("t", dfW8)] } "t").2
      dfW8 rfl (fun h => absurd (show "is_active" ∈ dfW8.cols by decide) h)]
    decide

/-- C7: `set_inactive` is a no-op (no error) when the table is unknown or
the value set is empty; otherwise, writing `pk0` for the frame's leading
column, it flips `is_active` to False on exactly the rows whose `pk0`
value is in the set, leaves every other cell of those rows and every
non-matching row unchanged, and touches no other table and no schema or
index. -/
theorem set_inactive_spec (s : Store) (t : String) (pkvs : List Value) :
    ((dictLookup s.data t = Option.none ∨ pkvs = []) →
      set_inactive s t pkvs = .ok s) ∧
    (∀ df pk0 cs, dictLookup s.data t = some df → pkvs ≠ [] →
      df.cols = pk0 :: cs →
      ∃ s' : Store, set_inactive s t pkvs = .ok s' ∧
        s'.indexes = s.indexes ∧ s'.schemas = s.schemas ∧
        (∀ u, u ≠ t → dictLookup s'.data u = dictLookup s.data u) ∧
        ∃ df', dictLookup s'.data t = some df' ∧
          df'.rows.length = df.rows.length ∧
          ∀ i r r', df.rows.get? i = some r → df'.rows.get? i = some r' →
            (rowGet r pk0 ∈ pkvs →
              rowGet r' "is_active" = .bool false ∧
              ∀ c, c ≠ "is_active" → rowGet r' c = rowGet r c) ∧
            (rowGet r pk0 ∉ pkvs → r' = r)) := by
  constructor
  · rintro (h | h)
    · simp [set_inactive, h]
    · subst h
      cases hdf : dictLookup s.data t with
      | none => simp [set_inactive, hdf]
      | some df => simp [set_inactive, hdf]
  · intro df pk0 cs hdf hne hcols
    simp only [set_inactive, hdf]
    rw [if_neg (by simpa [List.isEmpty_iff] using hne), hcols]
    simp only [List.head?_cons]
    refine ⟨_, rfl, rfl, rfl, fun u hu => dictLookup_dictSet_ne _ _ _ _ hu, ?_⟩
    refine ⟨_, dictLookup_dictSet_self _ _ _, by simp, ?_⟩
    intro i r r' hr hr'
    rw [List.get?_map, hr] at hr'
    have hr'' : r' = (fun r =>
        if rowGet r pk0 ∈ pkvs then rowSet r "is_active" (.bool false)
        else r) r := (Option.some.inj hr').symm
    constructor
    · intro hmem
      rw [hr'']
      simp only [if_pos hmem]
      exact ⟨rowGet_rowSet_self _ _ _, fun c hc => rowGet_rowSet_ne _ _ _ _ hc⟩
    · intro hmem
      rw [hr'']
      simp only [if_neg hmem]

/-- A concrete two-row table for the C7 witness. -/
def sC7 : Store :=
  { emptyStore with
      data := [("t", ⟨["id", "is_active"],
        [[("id", .int 1)], [("id", .int 2)]]⟩)] }

/-- Witness for C7 at a concrete store and value set. -/
theorem set_inactive_spec_witness :
    ∃ s' : Store, set_inactive sC7 "t" [.int 1] = .ok s' ∧
      s'.indexes = sC7.indexes ∧ s'.schemas = sC7.schemas ∧
      (∀ u, u ≠ "t" → dictLookup s'.data u = dictLookup sC7.data u) ∧
      ∃ df', dictLookup s'.data "t" = some df' ∧
        df'.rows.length =
          (DataFrame.mk ["id", "is_active"]
            [[("id", .int 1)], [("id", .int 2)]]).rows.length ∧
        ∀ i r r',
          (DataFrame.mk ["id", "is_active"]
            [[("id", .int 1)], [("id", .int 2)]]).rows.get? i = some r →
          df'.rows.get? i = some r' →
          (rowGet r "id" ∈ [Value.int 1] →
            rowGet r' "is_active" = .bool false ∧
            ∀ c, c ≠ "is_active" → rowGet r' c = rowGet r c) ∧
          (rowGet r "id" ∉ [Value.int 1] → r' = r) :=
  (set_inactive_spec sC7 "t" [.int 1]).2
    ⟨["id", "is_active"], [[("id", .int 1)], [("id", .int 2)]]⟩
    "id" ["is_active"] rfl (by decide) rfl

/-! ### C1: update matching semantics -/

/-- Store after `create_table("t", cols [id,name], pk [id], combined)`
followed by `insert_data` of `{id:1, name:"a"}`. -/
def c1S2 : Store :=
  (insert_data
    (((create_table emptyStore "t" ⟨["id", "name"], []⟩ ["id"] "combined"
        []).toOption.map Prod.snd).getD emptyStore)
    "t" ⟨["id", "name"], [[("id", .int 1), ("name", .str "a")]]⟩
    ["id"]).toOption.getD emptyStore

/-- `c1S2` after `update_data` with `{id:1, name:"b"}` under key `[id]`. -/
def c1S3 : Store :=
  (update_data c1S2 "t"
    ⟨["id", "name"], [[("id", .int 1), ("name", .str "b")]]⟩
    ["id"]).toOption.getD emptyStore

set_option maxRecDepth 4000 in
/-- C1 (amended): `update_data` matches rows on each declared primary-key
column independently and in sequence, not on all key columns jointly; under
a single declared key column the claimed upsert behaviour holds: inserting
`{id:1, name:"a"}` then updating with `{id:1, name:"b"}` under key `[id]`
leaves exactly one active row, with `id = 1` and `name = "b"`. -/
theorem update_data_single_key_upsert :
    (get_active_data c1S3 "t").rows.length = 1 ∧
    (get_active_data c1S3 "t").rows.map
        (fun r => (rowGet r "id", rowGet r "name")) =
      [(.int 1, .str "b")] := by
  decide

/-- Store over key columns `[a, b]` holding the single row
`{a:1, b:1, name:"x"}`. -/
def c1mS2 : Store :=
  (insert_data
    (((create_table emptyStore "t" ⟨["a", "b", "name"], []⟩ ["a", "b"]
        "combined" []).toOption.map Prod.snd).getD emptyStore)
    "t" ⟨["a", "b", "name"],
      [[("a", .int 1), ("b", .int 1), ("name", .str "x")]]⟩
    ["a", "b"]).toOption.getD emptyStore

/-- `c1mS2` after `update_data` with `{a:1, b:2, name:"y"}` under keys
`[a, b]`. -/
def c1mS3 : Store :=
  (update_data c1mS2 "t"
    ⟨["a", "b", "name"], [[("a", .int 1), ("b", .int 2), ("name", .str "y")]]⟩
    ["a", "b"]).toOption.getD emptyStore

set_option maxRecDepth 4000 in
/-- C1 counterexample: under composite keys `[a, b]`, the stored row
`{a:1, b:1, name:"x"}` agrees with the input `{a:1, b:2, name:"y"}` on `a`
only, so by the claim it matches on no full key tuple: it should stay and
the input should be appended, giving two rows, one with `b = 1`.  The code
instead replaces on the single-column `a` match: one row remains and no
row with `b = 1` survives. -/
theorem update_data_multikey_counterexample :
    ((dictLookup c1mS3.data "t").map (fun d => d.rows.length)) = some 1 ∧
    ((dictLookup c1mS3.data "t").map (fun d =>
        d.rows.all (fun r => ! Value.pyEq (rowGet r "b") (.int 1)))) =
      some true := by
  decide

/-! ### C2: what insert_data adds to the index -/

/-- C2 (amended): `insert_data` touches the index only when the input has
an `embeddings` column (combined mode): then the whole batch's embedding
vectors are appended to the index in batch row order, in the same call as
the row append.  Without an `embeddings` column — in particular in
separated mode, whose embedding columns are named `<col>_enc` — the rows
are stored but nothing is added to the index. -/
theorem insert_data_index_contract (s : Store) (t : String) (df : DataFrame)
    (pks : List String) (ex : DataFrame) (idx : FaissIndex)
    (hex : dictLookup s.data t = some ex)
    (hidx : dictLookup s.indexes t = some idx)
    (hpks : ∀ pk ∈ pks, pk ∈ df.cols) :
    ("embeddings" ∉ df.cols →
      ∃ s', insert_data s t df pks = .ok s' ∧
        dictLookup s'.indexes t = some idx ∧
        (dictLookup s'.data t).map DataFrame.rows = some (ex.rows ++ df.rows)) ∧
    (∀ vs, "embeddings" ∈ df.cols → vecsOf df.rows = some vs →
      (∀ v ∈ vs, v.length = idx.d) →
      ∃ s', insert_data s t df pks = .ok s' ∧
        dictLookup s'.indexes t = some { idx with vecs := idx.vecs ++ vs } ∧
        (dictLookup s'.data t).map DataFrame.rows = some (ex.rows ++ df.rows)) := by
  have hall : pks.all (fun c => df.cols.contains c) = true := by
    simp only [List.all_eq_true, List.elem_eq_mem, decide_eq_true_eq]
    exact hpks
  have hnewDf : True := trivial
  constructor
  · intro hemb
    refine ⟨{ s with data := dictSet s.data t (DataFrame.mk (unionCols ex.cols df.cols) (ex.rows ++ df.rows)) }, ?_, hidx, ?_⟩
    · simp only [insert_data, hex]
      rw [if_neg (not_not_intro hall), if_neg (by simp [List.elem_eq_mem, hemb])]
    · simp only [dictLookup_dictSet_self, Option.map_some']
  · intro vs hemb hvs hlen
    have hlenall : vs.all (fun v => v.length = idx.d) = true := by
      simp only [List.all_eq_true, decide_eq_true_eq]
      exact hlen
    refine ⟨{ s with data := dictSet s.data t (DataFrame.mk (unionCols ex.cols df.cols) (ex.rows ++ df.rows)), indexes := dictSet s.indexes t { idx with vecs := idx.vecs ++ vs } }, ?_, ?_, ?_⟩
    · simp only [insert_data, hex]
      rw [if_neg (not_not_intro hall),
        if_pos (by simp [List.elem_eq_mem, hemb]), hvs, hidx]
      simp [hlenall]
    · simp only [dictLookup_dictSet_self]
    · simp only [dictLookup_dictSet_self, Option.map_some']

/-- A 768-dimensional zero vector. -/
def zeroVec : List Int := List.replicate 768 0

/-- Separated-mode table over columns `[id, name]` with embedding source
column `name`. -/
def c2S1 : Store :=
  ((create_table emptyStore "t" ⟨["id", "name"], []⟩ ["id"] "separated"
      ["name"]).toOption.map Prod.snd).getD emptyStore

/-- A separated-mode batch: one row whose `name_enc` cell holds a populated
embedding vector. -/
def c2Df : DataFrame :=
  ⟨["id", "name", "name_enc"],
   [[("id", .int 1), ("name", .str "a"), ("name_enc", .vec zeroVec)]]⟩

/-- `c2S1` after inserting `c2Df`. -/
def c2S2 : Store := (insert_data c2S1 "t" c2Df ["id"]).toOption.getD emptyStore

set_option maxRecDepth 10000 in
/-- C2 counterexample: in separated mode the schema's embedding column is
`name_enc`; after `insert_data` of a row with a populated `name_enc`
vector, that row is stored but the backend-native index received nothing
— the claim requires every embedding-carrying row to be indexed in the
same call in both modes. -/
theorem insert_data_separated_counterexample :
    ((dictLookup c2S2.indexes "t").map (fun i => i.vecs)) = some [] ∧
    ((dictLookup c2S2.data "t").map (fun d =>
        d.rows.map (fun r => rowGet r "name_enc"))) = some [.vec zeroVec] ∧
    ((dictLookup c2S1.schemas "t").map (fun sch =>
        dictLookup sch.columns "name_enc")) = some (some "vector(768)") := by
  decide

/-- Combined-mode table over column `[id]`, for the C2 witness. -/
def c2cS1 : Store :=
  ((create_table emptyStore "t" ⟨["id"], []⟩ ["id"] "combined"
      []).toOption.map Prod.snd).getD emptyStore

/-- A combined-mode batch of one row with a 768-dimensional embedding. -/
def c2cDf : DataFrame :=
  ⟨["id", "embeddings"], [[("id", .int 1), ("embeddings", .vec zeroVec)]]⟩

set_option maxRecDepth 10000 in
/-- Witness for the amended C2 at a concrete combined-mode insert. -/
theorem insert_data_index_contract_witness :
    ∃ s', insert_data c2cS1 "t" c2cDf ["id"] = .ok s' ∧
      dictLookup s'.indexes "t" =
        some (FaissIndex.mk DEFAULT_DIMENTION (([] : List (List Int)) ++ [zeroVec])) ∧
      (dictLookup s'.data "t").map DataFrame.rows =
        some (([] : List Row) ++ c2cDf.rows) :=
  (insert_data_index_contract c2cS1 "t" c2cDf ["id"]
      ⟨["id", "embed_columns_names", "embed_columns_value", "embeddings",
        "is_active"], []⟩
      ⟨DEFAULT_DIMENTION, []⟩ (by decide) (by decide)
      (fun pk hpk => by
        have hp : pk = "id" := List.mem_singleton.mp hpk
        subst hp
        decide)).2
    [zeroVec] (by decide) (by decide)
    (fun v hv => by
      have hv' : v = zeroVec := List.mem_singleton.mp hv
      subst hv'
      decide)

/-! ### C6: search result shape -/

/-- One row with a 768-dimensional embedding whose squared L2 distance
from the zero query is 9. -/
def c6Df : DataFrame :=
  ⟨["id", "embeddings"],
   [[("id", .int 1), ("embeddings", .vec (List.replicate 767 0 ++ [3]))]]⟩

/-- Combined-mode table holding exactly one stored, indexed row. -/
def c6S2 : Store := (insert_data c2cS1 "t" c6Df ["id"]).toOption.getD emptyStore

set_option maxRecDepth 10000 in
/-- C6 failing input: one stored and indexed row, `top_k = 2`.  The flat
index pads its result with label `-1`; the guard `idx < len(data)` admits
`-1`, and `iloc[-1]` is Python negative indexing for the last row, so the
call returns 2 results — the row twice, the duplicate carrying the
FLT_MAX padding distance — where the claim requires exactly
`min(top_k, n) = 1` result with no duplicated or invalid entries. -/
theorem search_padding_code_bug :
    ((dictLookup c6S2.data "t").map (fun d => d.rows.length)) = some 1 ∧
    ((dictLookup c6S2.indexes "t").map (fun i => i.vecs.length)) = some 1 ∧
    ((search c6S2 "t" zeroVec 2).toOption.map (fun l =>
        (l.length, l.map (fun r => (rowGet r "id", rowGet r "distance"))))) =
      some (2, [(.int 1, .int 9), (.int 1, .int faissPadDistance)]) := by
  decide

/-! ### C9: the TableSchema key-set invariant -/

/-- C9 (amended): `create_table` establishes the key-set equality between
the schema's column map and its nullability map, and `add_column`
preserves the inclusion of the nullability map's keys in the column map's
keys; `add_column` does not extend the nullability map, so the converse
inclusion is not preserved. -/
theorem schema_invariant_amended (s : Store) (t : String) :
    (∀ df pks et ecn ct s' sch,
      dictLookup s.indexes t = Option.none →
      create_table s t df pks et ecn = .ok (ct, s') →
      dictLookup s'.schemas t = some sch →
      ∀ k, (dictLookup sch.columns k).isSome ↔
        (dictLookup sch.nullables k).isSome) ∧
    (∀ c ty s' sch sch',
      add_column s t c ty = .ok s' →
      dictLookup s.schemas t = some sch →
      dictLookup s'.schemas t = some sch' →
      (∀ k, (dictLookup sch.nullables k).isSome →
        (dictLookup sch.columns k).isSome) →
      ∀ k, (dictLookup sch'.nullables k).isSome →
        (dictLookup sch'.columns k).isSome) := by
  constructor
  · intro df pks et ecn ct s' sch hidx hok hsch k
    simp only [create_table, hidx] at hok
    obtain ⟨_, hs⟩ := Prod.mk.inj (Except.ok.inj hok)
    rw [← hs] at hsch
    simp only [dictLookup_dictSet_self] at hsch
    obtain rfl := Option.some.inj hsch
    simp only [dictLookup_map_true, Option.isSome_map']
  · intro c ty s' sch sch' hok hsch hsch' hincl k hk
    cases hdf : dictLookup s.data t with
    | none =>
      simp only [add_column, hsch, hdf] at hok
      exact absurd hok (by simp)
    | some df =>
      simp only [add_column, hsch, hdf] at hok
      have hs := Except.ok.inj hok
      rw [← hs] at hsch'
      simp only [dictLookup_dictSet_self] at hsch'
      obtain rfl := Option.some.inj hsch'
      simp only at hk ⊢
      by_cases hkc : k = c
      · subst hkc
        simp [dictLookup_dictSet_self]
      · rw [dictLookup_dictSet_ne _ _ _ _ hkc]
        exact hincl k hk

/-- The store from a concrete fresh `create_table`, and the schema it
records, for the C9 fixtures. -/
def c9S1 : Store :=
  ((create_table emptyStore "t" ⟨["id"], []⟩ ["id"] "combined"
      []).toOption.map Prod.snd).getD emptyStore

/-- `c9S1` after `add_column("t", "extra", "text")`. -/
def c9S2 : Store := (add_column c9S1 "t" "extra" "text").toOption.getD emptyStore

/-- C9 counterexample: after `add_column`, the new column is in the column
map but absent from the nullability map, so the claimed key-set equality
fails after an `add_column` call. -/
theorem add_column_nullables_counterexample :
    ((dictLookup c9S2.schemas "t").map (fun sch =>
        (dictLookup sch.columns "extra", dictLookup sch.nullables "extra"))) =
      some (some "text", Option.none) := by
  decide

/-- The schema stored by the concrete `create_table` of `c9S1`. -/
def schC9 : TableSchema := (dictLookup c9S1.schemas "t").getD ⟨[], []⟩

/-- The schema after the concrete `add_column` of `c9S2`. -/
def schC9' : TableSchema := (dictLookup c9S2.schemas "t").getD ⟨[], []⟩

/-- Witness for the amended C9 at the concrete table: key-set equality
after `create_table` (sampled at the fresh key `"id"`), and preservation
of the nullables-into-columns inclusion through `add_column` (sampled at
`"is_active"`). -/
theorem schema_invariant_amended_witness :
    ((dictLookup schC9.columns "id").isSome ↔
      (dictLookup schC9.nullables "id").isSome) ∧
    ((dictLookup schC9'.nullables "is_active").isSome →
      (dictLookup schC9'.columns "is_active").isSome) :=
  ⟨(schema_invariant_amended emptyStore "t").1 ⟨["id"], []⟩ ["id"] "combined"
      []
      (((create_table emptyStore "t" ⟨["id"], []⟩ ["id"] "combined"
          []).toOption.map Prod.fst).getD [])
      c9S1 schC9 rfl (by rfl) rfl "id",
   (schema_invariant_amended c9S1 "t").2 "extra" "text" c9S2 schC9 schC9'
      (by rfl) rfl rfl
      (fun k hk => by
        have h : schC9.nullables = schC9.columns.map (fun p => (p.1, true)) := rfl
        rw [h, dictLookup_map_true, Option.isSome_map'] at hk
        exact hk)
      "is_active"⟩

/-! ### C4: content of the synthesized schema -/

theorem enc_ne_names (x : String) : x ++ "_enc" ≠ "embed_columns_names" :=
  enc_ne_of_last (by decide)

theorem enc_ne_value (x : String) : x ++ "_enc" ≠ "embed_columns_value" :=
  enc_ne_of_last (by decide)

theorem enc_ne_embeddings (x : String) : x ++ "_enc" ≠ "embeddings" :=
  enc_ne_of_last (by decide)

theorem enc_ne_is_active (x : String) : x ++ "_enc" ≠ "is_active" :=
  enc_ne_of_last (by decide)

set_option maxRecDepth 2000 in
/-- C4 counterexample: the synthesis loop types every input column as text
and then overwrites the reserved names; an input column named `is_active`
ends up typed `boolean`, refuting "every input column [becomes] a text
column" as universally stated. -/
theorem create_table_reserved_column_counterexample :
    ((create_table emptyStore "t" ⟨["is_active"], []⟩ ["is_active"] "combined"
        []).toOption.map (fun p => dictLookup p.1 "is_active")) =
      some (some "boolean") ∧ "boolean" ≠ "text" := by
  decide

/-- C4 (amended): for a fresh table whose input columns avoid the four
synthesized reserved names and do not end in `_enc`, the synthesized
column map types every input column text, always holds
`embed_columns_names : text[]` and `is_active : boolean`; in combined mode
it additionally holds `embed_columns_value : text` and `embeddings` as a
vector of the configured dimension and no `_enc`-suffixed column at all;
in the non-combined (separated) branch it holds exactly one `<col>_enc`
vector column of the configured dimension per embedding-source column and
no `embeddings` or `embed_columns_value` column.  Input columns named like
a reserved or `<col>_enc` column are overwritten by the synthesized type,
which is what the counterexample exhibits. -/
theorem create_table_schema_amended (s : Store) (t : String) (df : DataFrame)
    (pks : List String) (et : String) (ecn : List String)
    (ct : List (String × String)) (s' : Store)
    (hfresh : dictLookup s.indexes t = Option.none)
    (hok : create_table s t df pks et ecn = .ok (ct, s'))
    (hres : ∀ c ∈ df.cols, c ≠ "embed_columns_names" ∧
      c ≠ "embed_columns_value" ∧ c ≠ "embeddings" ∧ c ≠ "is_active")
    (henc : ∀ c ∈ df.cols, ∀ x : String, c ≠ x ++ "_enc") :
    (∀ c ∈ df.cols, dictLookup ct c = some "text") ∧
    dictLookup ct "embed_columns_names" = some "text[]" ∧
    dictLookup ct "is_active" = some "boolean" ∧
    (et = "combined" →
      dictLookup ct "embed_columns_value" = some "text" ∧
      dictLookup ct "embeddings" =
        some ("vector(" ++ toString DEFAULT_DIMENTION ++ ")") ∧
      ∀ x : String, dictLookup ct (x ++ "_enc") = Option.none) ∧
    (et ≠ "combined" →
      dictLookup ct "embed_columns_value" = Option.none ∧
      dictLookup ct "embeddings" = Option.none ∧
      (∀ c ∈ ecn, dictLookup ct (c ++ "_enc") =
        some ("vector(" ++ toString DEFAULT_DIMENTION ++ ")")) ∧
      (∀ x : String, x ∉ ecn →
        dictLookup ct (x ++ "_enc") = Option.none)) := by
  simp only [create_table, hfresh] at hok
  obtain ⟨hct, _⟩ := Prod.mk.inj (Except.ok.inj hok)
  subst hct
  refine ⟨?_, ?_, ?_, ?_, ?_⟩
  · intro c hc
    obtain ⟨hn1, hn2, hn3, hn4⟩ := hres c hc
    rw [dictLookup_dictSet_ne _ _ _ _ hn4]
    by_cases he : et = "combined"
    · rw [if_pos he, dictLookup_dictSet_ne _ _ _ _ hn3,
        dictLookup_dictSet_ne _ _ _ _ hn2, dictLookup_dictSet_ne _ _ _ _ hn1,
        dictLookup_foldl_text, if_pos hc]
    · rw [if_neg he,
        dictLookup_foldl_enc_notmem _ _ _ _
          (fun cc _ heq => henc c hc cc heq.symm),
        dictLookup_dictSet_ne _ _ _ _ hn1, dictLookup_foldl_text, if_pos hc]
  · rw [dictLookup_dictSet_ne _ _ _ _ (by decide)]
    by_cases he : et = "combined"
    · rw [if_pos he, dictLookup_dictSet_ne _ _ _ _ (by decide),
        dictLookup_dictSet_ne _ _ _ _ (by decide), dictLookup_dictSet_self]
    · rw [if_neg he,
        dictLookup_foldl_enc_notmem _ _ _ _ (fun cc _ => enc_ne_names cc),
        dictLookup_dictSet_self]
  · rw [dictLookup_dictSet_self]
  · intro he
    refine ⟨?_, ?_, ?_⟩
    · rw [dictLookup_dictSet_ne _ _ _ _ (by decide), if_pos he,
        dictLookup_dictSet_ne _ _ _ _ (by decide), dictLookup_dictSet_self]
    · rw [dictLookup_dictSet_ne _ _ _ _ (by decide), if_pos he,
        dictLookup_dictSet_self]
    · intro x
      rw [dictLookup_dictSet_ne _ _ _ _ (enc_ne_is_active x), if_pos he,
        dictLookup_dictSet_ne _ _ _ _ (enc_ne_embeddings x),
        dictLookup_dictSet_ne _ _ _ _ (enc_ne_value x),
        dictLookup_dictSet_ne _ _ _ _ (enc_ne_names x),
        dictLookup_foldl_text,
        if_neg (fun hmem => henc _ hmem x rfl)]
      rfl
  · intro he
    refine ⟨?_, ?_, ?_, ?_⟩
    · rw [dictLookup_dictSet_ne _ _ _ _ (by decide), if_neg he,
        dictLookup_foldl_enc_notmem _ _ _ _ (fun cc _ => enc_ne_value cc),
        dictLookup_dictSet_ne _ _ _ _ (by decide), dictLookup_foldl_text,
        if_neg (fun hmem => (hres _ hmem).2.1 rfl)]
      rfl
    · rw [dictLookup_dictSet_ne _ _ _ _ (by decide), if_neg he,
        dictLookup_foldl_enc_notmem _ _ _ _ (fun cc _ => enc_ne_embeddings cc),
        dictLookup_dictSet_ne _ _ _ _ (by decide), dictLookup_foldl_text,
        if_neg (fun hmem => (hres _ hmem).2.2.1 rfl)]
      rfl
    · intro c hc
      rw [dictLookup_dictSet_ne _ _ _ _ (enc_ne_is_active c), if_neg he,
        dictLookup_foldl_enc_mem _ _ _ _ hc]
    · intro x hx
      rw [dictLookup_dictSet_ne _ _ _ _ (enc_ne_is_active x), if_neg he,
        dictLookup_foldl_enc_notmem _ _ _ _
          (fun cc hcc heq => hx (by rw [← append_left_injective_str heq]; exact hcc)),
        dictLookup_dictSet_ne _ _ _ _ (enc_ne_names x),
        dictLookup_foldl_text,
        if_neg (fun hmem => henc _ hmem x rfl)]
      rfl

/-- The column map synthesized for a concrete separated-mode table over
input columns `[id, name]` with embedding source `name`, for the C4
witness. -/
def ctC4 : List (String × String) :=
  ((create_table emptyStore "t" ⟨["id", "name"], []⟩ ["id"] "separated"
      ["name"]).toOption.map Prod.fst).getD []

/-- The store produced alongside `ctC4`. -/
def sC4 : Store :=
  ((create_table emptyStore "t" ⟨["id", "name"], []⟩ ["id"] "separated"
      ["name"]).toOption.map Prod.snd).getD emptyStore

/-- Witness for the amended C4 at the concrete separated-mode table,
sampling each conjunct. -/
theorem create_table_schema_amended_witness :
    dictLookup ctC4 "name" = some "text" ∧
    dictLookup ctC4 "embed_columns_names" = some "text[]" ∧
    dictLookup ctC4 "is_active" = some "boolean" ∧
    dictLookup ctC4 ("name" ++ "_enc") =
      some ("vector(" ++ toString DEFAULT_DIMENTION ++ ")") ∧
    dictLookup ctC4 "embeddings" = Option.none ∧
    dictLookup ctC4 "embed_columns_value" = Option.none := by
  have H := create_table_schema_amended emptyStore "t" ⟨["id", "name"], []⟩
    ["id"] "separated" ["name"] ctC4 sC4 rfl (by rfl)
    (fun c hc => by
      rcases List.mem_cons.mp hc with h | h
      · subst h
        exact ⟨by decide, by decide, by decide, by decide⟩
      · have h' : c = "name" := List.mem_singleton.mp h
        subst h'
        exact ⟨by decide, by decide, by decide, by decide⟩)
    (fun c hc x => by
      rcases List.mem_cons.mp hc with h | h
      · subst h
        exact fun heq => enc_ne_of_last (by decide) heq.symm
      · have h' : c = "name" := List.mem_singleton.mp h
        subst h'
        exact fun heq => enc_ne_of_last (by decide) heq.symm)
  obtain ⟨ha, hb, hc, _, he⟩ := H
  obtain ⟨he1, he2, he3, _⟩ := he (by decide)
  exact ⟨ha "name" (by decide), hb, hc, he3 "name" (by decide), he2, he1⟩

end DataLoader
